import Mathlib

/-!
Shallow embedding of the FnBlog-Tracker repository (src/main.py and
src/test.py).  Python strings are modelled as lists of characters
(`Str`), Python `dict` lookups of optional fields as `Option`, and the
seen-state dictionary `old_data` as an association list.  The polling
cycle body of `blog_monitor_loop` is embedded as a pure function from
the fetched post lists and the current store to the list of I/O events
it performs (send / sleep / save) together with the updated store.
-/

/-- Python strings, modelled as lists of characters. -/
abbrev Str := List Char

/-- Characters stripped by Python `str.strip()` (the ASCII whitespace
subset, which covers every constant appearing in the source). -/
def isPySpace (c : Char) : Bool :=
  c = ' ' || c = '\t' || c = '\n' || c = '\r' || c = '\x0b' || c = '\x0c'

/-- Python `s.strip()`. -/
def pyStrip (s : Str) : Str :=
  ((s.dropWhile isPySpace).reverse.dropWhile isPySpace).reverse

/-- Normalisation of a Python slice index against a string of length `n`
(negative indices count from the end, out-of-range indices clamp). -/
def sliceIdx (n : Nat) (i : Int) : Nat :=
  if i < 0 then (i + n).toNat else min i.toNat n

/-- Python slicing `s[a:b]`. -/
def pySlice (s : Str) (a b : Int) : Str :=
  (s.take (sliceIdx s.length b)).drop (sliceIdx s.length a)

/-- Python `s.find(sub, start)`: the least index `≥ start` at which `sub`
occurs in `s`, or `-1` when there is none. -/
def pyFind (s sub : Str) (start : Int) : Int :=
  let st := sliceIdx s.length start
  match (List.range (s.length + 1 - st)).find? (fun k => sub.isPrefixOf (s.drop (st + k))) with
  | some k => ((st + k : Nat) : Int)
  | none => -1


/-- Python substring membership `sub in s`. -/
def pyIn (sub s : Str) : Bool :=
  (List.range (s.length + 1)).any (fun k => sub.isPrefixOf (s.drop k))

/-- Helper for `replaceAll`, recursing on an explicit fuel (the length of
the scanned string always bounds the fuel, so the fuel never runs out). -/
def replaceAllFuel (old : Str) : Nat → Str → Str
  | 0, s => s
  | _ + 1, [] => []
  | fuel + 1, c :: rest =>
    if !old.isEmpty && old.isPrefixOf (c :: rest) then
      replaceAllFuel old fuel (rest.drop (old.length - 1))
    else
      c :: replaceAllFuel old fuel rest

/-- Python `s.replace(old, "")`: delete every (left-to-right,
non-overlapping) occurrence of `old` in `s`. -/
def replaceAll (s old : Str) : Str :=
  replaceAllFuel old s.length s

/-- Python `a or b` on optional strings (`None` and `""` are falsy). -/
def pyOr (a b : Option Str) : Option Str :=
  match a with
  | some s => if s.isEmpty then b else some s
  | none => b

/-- Python `a or d` where the fallback `d` is a (truthy) string literal. -/
def pyOrD (a : Option Str) (d : Str) : Str :=
  match a with
  | some s => if s.isEmpty then d else s
  | none => d

/-- Python truthiness of an optional string. -/
def pyTruthy (a : Option Str) : Bool :=
  match a with
  | some s => !s.isEmpty
  | none => false

/-- A raw blog post record as returned by the JSON APIs.  Each field
models the corresponding dictionary key of the Python `post` dict
(`idField` stands for the JSON key whose name is an underscore followed
by `id`, and `metaTags` for the underscore-prefixed `metaTags` key);
`none` means the key is absent. -/
structure RawPost where
  idField : Option Str := none
  link : Option Str := none
  slug : Option Str := none
  title : Option Str := none
  gridTitle : Option Str := none
  metaTags : Option Str := none
  content : Option Str := none
  author : Option Str := none
  image : Option Str := none
  trendingImage : Option Str := none
  trending : Option Bool := none
deriving DecidableEq

/-- main.py `get_post_id`: `post.get("_id") or post.get("link") or post.get("slug")`. -/
def get_post_id (post : RawPost) : Option Str :=
  pyOr post.idField (pyOr post.link post.slug)

/-- The identity under which the monitor loop tracks a post: the result
of `get_post_id` when it is truthy (`if post_id:`), else `none`. -/
def trackedId (post : RawPost) : Option Str :=
  match get_post_id post with
  | some pid => if pid.isEmpty then none else some pid
  | none => none

/-- main.py line 182: `trending = post.get("trending", False)`. -/
def trendingOf (post : RawPost) : Bool :=
  post.trending.getD false

/-- The literal `meta name="description"` searched for by `extract_description`. -/
def search_key : Str := "meta name=\"description\"".data

/-- The literal `content="` searched for by `extract_description`. -/
def content_key : Str := "content=\"".data

/-- A double-quote character, as a one-character string. -/
def quoteStr : Str := "\"".data

/-- main.py `extract_description`: locate the `search_key` marker in the
meta-tag blob, then slice out the text between the quote that follows the
next `content="` occurrence and the next quote (Python `find` returning
`-1` on a missed search is reproduced faithfully, including its effect on
the subsequent slice). -/
def extract_description (meta_tags : Str) : Option Str :=
  if pyIn search_key meta_tags then
    let keyPos := pyFind meta_tags search_key 0
    let start := pyFind meta_tags content_key keyPos + (content_key.length : Int)
    let stop := pyFind meta_tags quoteStr start
    some (pySlice meta_tags start stop)
  else
    none

/-- The literal `<p style=` whose presence discards a description. -/
def pstyle : Str := "<p style=".data

/-- The tail of `pstyle` after its leading angle bracket. -/
def pstyleTail : Str := "p style=".data

/-- The ellipsis marker appended after truncation. -/
def ellipsis : Str := "...".data

/-- The boilerplate phrase removed from titles. -/
def boilerPhrase : Str := "the competitive Fortnite team".data

/-- The literal title fallback `No Title`. -/
def noTitleStr : Str := "No Title".data

/-- The literal author fallback `Unknown`. -/
def unknownStr : Str := "Unknown".data

/-- The thumbnail size marker `576x576`. -/
def sizeMarker : Str := "576x576".data

/-- The URI-scheme test string `http` used by `startswith`. -/
def httpStr : Str := "http".data

/-- The blog base URL prefixed to a slug. -/
def blogBase : Str := "https://www.fortnite.com/blog/".data

/-- The root fallback URL. -/
def rootUrl : Str := "https://www.fortnite.com/".data

/-- build_embed lines 102-103: title fallback chain
`post.get("title") or post.get("gridTitle") or "No Title"`. -/
def title_fallback (post : RawPost) : Str :=
  pyOrD post.title (pyOrD post.gridTitle noTitleStr)

/-- build_embed lines 106-111: description resolution before the
inline-style check — the extracted meta description when truthy, else the
content body (`or None`), truncated to 997 characters plus the ellipsis
when longer than 1000 characters. -/
def resolve_description (post : RawPost) : Option Str :=
  let d := extract_description (post.metaTags.getD [])
  if pyTruthy d then d
  else
    match post.content with
    | some c =>
        if c.isEmpty then none
        else if 1000 < c.length then some (c.take 997 ++ ellipsis) else some c
    | none => none

/-- build_embed lines 113-115: discard the description entirely when it
contains the `<p style=` marker. -/
def final_description (post : RawPost) : Option Str :=
  let d := resolve_description post
  if pyTruthy d && pyIn pstyle (d.getD []) then none else d

/-- build_embed lines 117-125: link resolution from the slug when the
link field is absent or not absolute. -/
def link_from_slug (post : RawPost) : Str :=
  match post.slug with
  | some s => if s.isEmpty then rootUrl else blogBase ++ s
  | none => rootUrl

/-- build_embed lines 117-125: use the link field verbatim when truthy
and starting with `http`, else fall back to the slug-derived URL. -/
def resolve_link (post : RawPost) : Str :=
  match post.link with
  | some l => if !l.isEmpty && httpStr.isPrefixOf l then l else link_from_slug post
  | none => link_from_slug post

/-- The literal prefix of the `Read More` field value. -/
def readMorePre : Str := "[Visit Blog Post](".data

/-- The literal suffix of the `Read More` field value. -/
def readMorePost : Str := ")".data

/-- The observable content of the Discord embed built by `build_embed`:
title, color, optional description, the `Author` field value, optional
thumbnail and main image URLs, and the `Read More` field value. -/
structure Embed where
  title : Str
  color : Nat
  description : Option Str
  author : Str
  thumbnail : Option Str
  image : Option Str
  readMore : Str
deriving DecidableEq

/-- main.py `build_embed` (identical in test.py): the category argument
is used only for logging and does not influence the embed. -/
def build_embed (post : RawPost) (_category : Str) : Embed :=
  { title := pyStrip (replaceAll (title_fallback post) boilerPhrase)
    color := 0
    description :=
      if pyTruthy (final_description post) then final_description post else none
    author := pyOrD post.author unknownStr
    thumbnail :=
      match post.image with
      | some u => if !u.isEmpty && pyIn sizeMarker u then some u else none
      | none => none
    image :=
      match post.trendingImage with
      | some u => if u.isEmpty then none else some u
      | none => none
    readMore := readMorePre ++ resolve_link post ++ readMorePost }

/-- The outcome of the HTTP GET performed by `fetch_posts`: either some
network / transport / decode / non-2xx failure (everything caught by the
`except` clause), or a parsed JSON body whose `blogList` field holds a
list of posts (`none` when the field is absent). -/
inductive FetchOutcome where
  | failure
  | success (blogList : Option (List RawPost))
deriving DecidableEq

/-- main.py `fetch_posts`: on success return the `blogList` field with
`[]` as default, on any failure log and return `[]`.  Exception freedom
is reflected by totality of the function over all outcomes. -/
def fetch_posts : FetchOutcome → List RawPost
  | FetchOutcome.failure => []
  | FetchOutcome.success none => []
  | FetchOutcome.success (some l) => l

/-- The seen-state dictionary `old_data`: identity string to the value of
`entry.get("trending")` (an absent `trending` key in a file-loaded entry
is `none`; entries written by the loop are always `some b`). -/
abbrev Store := List (Str × Option Bool)

/-- Python dict lookup on the seen-state store. -/
def lookupStore : Store → Str → Option (Option Bool)
  | [], _ => none
  | (k2, v2) :: rest, k => if k2 = k then some v2 else lookupStore rest k

/-- Python dict assignment `old_data[pid] = entry` on the seen-state store. -/
def insertStore : Store → Str → Option Bool → Store
  | [], k, v => [(k, v)]
  | (k2, v2) :: rest, k, v =>
      if k2 = k then (k, v) :: rest else (k2, v2) :: insertStore rest k v

/-- The three outcomes of change detection. -/
inductive Classification where
  | unseen
  | changed
  | unchanged
deriving DecidableEq

/-- The change-detection condition of main.py line 184, split into the
three classes: `unseen` when `post_id not in self.old_data`, otherwise
`changed` exactly when `self.old_data[post_id].get("trending") != trending`. -/
def classify (st : Store) (pid : Str) (t : Bool) : Classification :=
  match lookupStore st pid with
  | none => Classification.unseen
  | some stored =>
      if stored = some t then Classification.unchanged else Classification.changed

/-- The per-post body of the detection loops (main.py lines 179-189 and
its two clones): skip the post when its id is not truthy; otherwise,
unless it is classified `unchanged`, append the built embed with the
message delay and write the new entry into the store. -/
def process_post (category : Str) (delay : Nat)
    (acc : List (Embed × Nat) × Store) (post : RawPost) : List (Embed × Nat) × Store :=
  match trackedId post with
  | none => acc
  | some pid =>
      if classify acc.2 pid (trendingOf post) = Classification.unchanged then acc
      else
        (acc.1 ++ [(build_embed post category, delay)],
         insertStore acc.2 pid (some (trendingOf post)))

/-- Whether a post is a no-op for the detection loop against store `st`:
it is untracked, or classified `unchanged`. -/
def itemUnchanged (st : Store) (post : RawPost) : Bool :=
  match trackedId post with
  | none => true
  | some pid => decide (classify st pid (trendingOf post) = Classification.unchanged)

/-- The observable I/O actions of the delivery and persistence phase of
one polling cycle: a message send attempt (with the `content` mention it
carries, if any, and whether it succeeded), an inter-message sleep, and
a write of the state file. -/
inductive Event where
  | send (mention : Option Str) (e : Embed) (ok : Bool)
  | sleep (d : Nat)
  | save (st : Store)
deriving DecidableEq

/-- The delivery loop (main.py lines 206-213): for the message at index
`i`, a successful send is followed by `asyncio.sleep(delay)`; when the
send raises, the exception handler skips the sleep and the loop moves on
to the next message.  `ok i` tells whether the `i`-th send succeeds. -/
def deliver (mention : Option Str) (ok : Nat → Bool) :
    Nat → List (Embed × Nat) → List Event
  | _, [] => []
  | i, (e, d) :: rest =>
      (if ok i then [Event.send mention e true, Event.sleep d]
       else [Event.send mention e false]) ++ deliver mention ok (i + 1) rest

/-- The category label of the competitive feed. -/
def catCompetitive : Str := "Competitive".data

/-- The category label of the normal feed. -/
def catNormal : Str := "Normal".data

/-- The category label of the creative feed (test.py only). -/
def catCreative : Str := "Creative".data

namespace Main

/-- main.py line 33. -/
def MESSAGE_DELAY : Nat := 5

/-- The detection phase of main.py `blog_monitor_loop` (lines 179-202):
fold the per-post step over the competitive posts and then the normal
posts, starting from an empty embed list and the current store. -/
def detect (competitive_posts normal_posts : List RawPost) (st : Store) :
    List (Embed × Nat) × Store :=
  normal_posts.foldl (process_post catNormal MESSAGE_DELAY)
    (competitive_posts.foldl (process_post catCompetitive MESSAGE_DELAY) ([], st))

/-- One cycle of main.py `blog_monitor_loop` after the fetches: detection,
then — only when `new_embeds` is non-empty — the delivery loop (each send
without any mention content) followed by `save_old_data`.  Returns the
event trace and the updated in-memory store. -/
def blog_monitor_cycle (ok : Nat → Bool)
    (competitive_posts normal_posts : List RawPost) (st : Store) :
    List Event × Store :=
  let a := detect competitive_posts normal_posts st
  if a.1.isEmpty then ([], a.2)
  else (deliver none ok 0 a.1 ++ [Event.save a.2], a.2)

end Main

namespace Test

/-- test.py line 31. -/
def MESSAGE_DELAY : Nat := 2

/-- The role-mention prefix of the message content in test.py line 192. -/
def mentionPre : Str := "<@&".data

/-- The role-mention suffix of the message content in test.py line 192. -/
def mentionPost : Str := ">".data

/-- The message content sent with every embed in test.py line 192. -/
def mentionText (pingUserId : Str) : Str :=
  mentionPre ++ pingUserId ++ mentionPost

/-- The detection phase of test.py `blog_monitor_loop` (lines 155-186):
competitive, then normal, then creative posts. -/
def detect (competitive_posts normal_posts creative_posts : List RawPost)
    (st : Store) : List (Embed × Nat) × Store :=
  creative_posts.foldl (process_post catCreative MESSAGE_DELAY)
    (normal_posts.foldl (process_post catNormal MESSAGE_DELAY)
      (competitive_posts.foldl (process_post catCompetitive MESSAGE_DELAY) ([], st)))

/-- One cycle of test.py `blog_monitor_loop` after the fetches: as in
main.py, but every send carries the same fixed role-mention content. -/
def blog_monitor_cycle (pingUserId : Str) (ok : Nat → Bool)
    (competitive_posts normal_posts creative_posts : List RawPost) (st : Store) :
    List Event × Store :=
  let a := detect competitive_posts normal_posts creative_posts st
  if a.1.isEmpty then ([], a.2)
  else (deliver (some (mentionText pingUserId)) ok 0 a.1 ++ [Event.save a.2], a.2)

end Test

/-- The mention content of each send attempt of a trace, in order. -/
def sendMentions : List Event → List (Option Str)
  | [] => []
  | Event.send m _ _ :: r => m :: sendMentions r
  | _ :: r => sendMentions r

/-- Whether a trace contains a state-file write. -/
def hasSave : List Event → Bool
  | [] => false
  | Event.save _ :: _ => true
  | _ :: r => hasSave r

/-- Whether every send attempt of a trace (successful or not) is
immediately followed by a sleep. -/
def everySendFollowedBySleep : List Event → Bool
  | [] => true
  | Event.send _ _ _ :: Event.sleep _ :: r => everySendFollowedBySleep r
  | Event.send _ _ _ :: _ => false
  | _ :: r => everySendFollowedBySleep r

/-- Whether every successful send attempt of a trace is immediately
followed by a sleep. -/
def everyOkSendFollowedBySleep : List Event → Bool
  | [] => true
  | Event.send _ _ true :: Event.sleep _ :: r => everyOkSendFollowedBySleep r
  | Event.send _ _ true :: _ => false
  | _ :: r => everyOkSendFollowedBySleep r

/-- The first-message-only mention policy claimed by the spec, as a
predicate on a cycle's event trace: if any message is sent, the first
send carries a mention and no later send does. -/
def firstMessageOnlyMention (trace : List Event) : Bool :=
  match sendMentions trace with
  | [] => true
  | m :: rest => m.isSome && rest.all Option.isNone

/-- A sample identity string. -/
def idA : Str := "a1".data

/-- A second, distinct sample identity string. -/
def idB : Str := "b2".data

/-- A sample fresh competitive post. -/
def postA : RawPost := { idField := some idA, trending := some false }

/-- A sample fresh normal post. -/
def postB : RawPost := { idField := some idB }

/-- A post whose stored trending flag will be flipped. -/
def postFlip : RawPost := { idField := some idA, trending := some false }

/-- A post with no `trending` key. -/
def postNoTrend : RawPost := { idField := some idA }

/-- A 1500-character content body. -/
def longBody : Str := List.replicate 1500 'a'

/-- A post with a 1500-character content body and no meta tags. -/
def pC6 : RawPost := { content := some longBody }

/-- A meta-tag blob that contains both a meta description and the
inline-style marker. -/
def blobC7 : Str := "<meta name=\"description\" content=\"Hello\"><p style=\"x\">".data

/-- A post whose meta-tag blob is `blobC7`. -/
def pC7 : RawPost := { metaTags := some blobC7 }

/-- The meta description text contained in `blobC7`. -/
def helloStr : Str := "Hello".data

/-- A post whose content body is exactly the inline-style marker. -/
def pC7w : RawPost := { content := some pstyle }

/-- A post whose title is exactly the boilerplate phrase. -/
def pC8 : RawPost := { title := some boilerPhrase }

/-- A send-outcome oracle under which every send succeeds. -/
def okAll : Nat → Bool := fun _ => true

/-- A send-outcome oracle under which exactly the first send fails. -/
def okFail0 : Nat → Bool := fun i => i != 0

/-- A sample role id for the test.py mention. -/
def pingSample : Str := "123".data

/-- A store recording `idA` with trending `true`. -/
def stTrendTrue : Store := [(idA, some true)]

/-- A store recording `idA` with trending `false`. -/
def stTrendFalse : Store := [(idA, some false)]

theorem lookupStore_insertStore_self (st : Store) (k : Str) (v : Option Bool) :
    lookupStore (insertStore st k v) k = some v := by
  induction st with
  | nil => simp [insertStore, lookupStore]
  | cons kv rest ih =>
      obtain ⟨k2, v2⟩ := kv
      by_cases h : k2 = k
      · simp [insertStore, lookupStore, h]
      · simp [insertStore, lookupStore, h, ih]

theorem trackedId_of_get_post_id (post : RawPost) (pid : Str)
    (hpid : get_post_id post = some pid) (hne : pid ≠ []) :
    trackedId post = some pid := by
  cases pid with
  | nil => exact absurd rfl hne
  | cons c cs => simp [trackedId, hpid]

theorem process_post_untracked (cat : Str) (d : Nat)
    (acc : List (Embed × Nat) × Store) (post : RawPost)
    (h : trackedId post = none) :
    process_post cat d acc post = acc := by
  simp [process_post, h]

theorem process_post_unchanged (cat : Str) (d : Nat)
    (acc : List (Embed × Nat) × Store) (post : RawPost) (pid : Str)
    (h : trackedId post = some pid)
    (hc : classify acc.2 pid (trendingOf post) = Classification.unchanged) :
    process_post cat d acc post = acc := by
  simp [process_post, h, hc]

theorem process_post_trigger (cat : Str) (d : Nat)
    (acc : List (Embed × Nat) × Store) (post : RawPost) (pid : Str)
    (h : trackedId post = some pid)
    (hc : classify acc.2 pid (trendingOf post) ≠ Classification.unchanged) :
    process_post cat d acc post
      = (acc.1 ++ [(build_embed post cat, d)],
         insertStore acc.2 pid (some (trendingOf post))) := by
  simp [process_post, h, hc]

theorem process_post_length_le (cat : Str) (d : Nat)
    (acc : List (Embed × Nat) × Store) (post : RawPost) :
    acc.1.length ≤ (process_post cat d acc post).1.length := by
  unfold process_post
  cases h : trackedId post with
  | none => simp
  | some pid =>
      by_cases hc : classify acc.2 pid (trendingOf post) = Classification.unchanged
      · simp [hc]
      · simp [hc]

theorem foldl_process_post_length_le (cat : Str) (d : Nat) (posts : List RawPost)
    (acc : List (Embed × Nat) × Store) :
    acc.1.length ≤ (posts.foldl (process_post cat d) acc).1.length := by
  induction posts generalizing acc with
  | nil => simp
  | cons p rest ih =>
      calc acc.1.length ≤ (process_post cat d acc p).1.length :=
            process_post_length_le cat d acc p
        _ ≤ _ := by rw [List.foldl_cons]; exact ih _

theorem foldl_process_post_all_unchanged (cat : Str) (d : Nat) (posts : List RawPost)
    (e : List (Embed × Nat)) (st : Store) :
    (∀ p ∈ posts, itemUnchanged st p = true) →
    posts.foldl (process_post cat d) (e, st) = (e, st) := by
  induction posts with
  | nil => intro _; rfl
  | cons p rest ih =>
      intro h
      have hp := h p (List.mem_cons_self p rest)
      have hstep : process_post cat d (e, st) p = (e, st) := by
        unfold itemUnchanged at hp
        cases htr : trackedId p with
        | none => exact process_post_untracked cat d (e, st) p htr
        | some pid =>
            rw [htr] at hp
            simp only [decide_eq_true_eq] at hp
            exact process_post_unchanged cat d (e, st) p pid htr hp
      rw [List.foldl_cons, hstep]
      exact ih (fun q hq => h q (List.mem_cons_of_mem p hq))

theorem foldl_process_post_nil_inv (cat : Str) (d : Nat) (posts : List RawPost)
    (e : List (Embed × Nat)) (st : Store) :
    (posts.foldl (process_post cat d) (e, st)).1 = e →
    posts.foldl (process_post cat d) (e, st) = (e, st)
      ∧ ∀ p ∈ posts, itemUnchanged st p = true := by
  induction posts with
  | nil => intro _; exact ⟨rfl, by simp⟩
  | cons p rest ih =>
      intro h
      have hstep : process_post cat d (e, st) p = (e, st) ∧ itemUnchanged st p = true := by
        cases htr : trackedId p with
        | none =>
            exact ⟨process_post_untracked cat d (e, st) p htr, by simp [itemUnchanged, htr]⟩
        | some pid =>
            by_cases hc : classify st pid (trendingOf p) = Classification.unchanged
            · exact ⟨process_post_unchanged cat d (e, st) p pid htr hc,
                by simp [itemUnchanged, htr, hc]⟩
            · exfalso
              have htrig := process_post_trigger cat d (e, st) p pid htr hc
              rw [List.foldl_cons, htrig] at h
              have hlen := foldl_process_post_length_le cat d rest
                (e ++ [(build_embed p cat, d)], insertStore st pid (some (trendingOf p)))
              have hlen2 := congrArg List.length h
              simp only [List.length_append, List.length_cons, List.length_nil] at hlen hlen2
              omega
      obtain ⟨hs, hu⟩ := hstep
      rw [List.foldl_cons, hs] at h
      obtain ⟨hfold, hall⟩ := ih h
      refine ⟨by rw [List.foldl_cons, hs]; exact hfold, ?_⟩
      intro q hq
      rcases List.mem_cons.mp hq with hq1 | hq2
      · rw [hq1]; exact hu
      · exact hall q hq2

theorem detect_all_unchanged (comp normal : List RawPost) (st : Store)
    (h : (comp ++ normal).all (itemUnchanged st) = true) :
    Main.detect comp normal st = ([], st) := by
  rw [List.all_append, Bool.and_eq_true] at h
  obtain ⟨h1, h2⟩ := h
  unfold Main.detect
  rw [foldl_process_post_all_unchanged _ _ comp [] st (List.all_eq_true.mp h1)]
  exact foldl_process_post_all_unchanged _ _ normal [] st (List.all_eq_true.mp h2)

theorem detect_nil_inv (comp normal : List RawPost) (st : Store)
    (h : (Main.detect comp normal st).1 = []) :
    Main.detect comp normal st = ([], st)
      ∧ (comp ++ normal).all (itemUnchanged st) = true := by
  unfold Main.detect at h ⊢
  have hA1 : (comp.foldl (process_post catCompetitive Main.MESSAGE_DELAY) ([], st)).1 = [] := by
    have hle := foldl_process_post_length_le catNormal Main.MESSAGE_DELAY normal
      (comp.foldl (process_post catCompetitive Main.MESSAGE_DELAY) ([], st))
    have := congrArg List.length h
    simp only [List.length_nil] at this
    rw [this] at hle
    exact List.length_eq_zero.mp (Nat.le_zero.mp hle)
  obtain ⟨hAfold, hcomp⟩ :=
    foldl_process_post_nil_inv catCompetitive Main.MESSAGE_DELAY comp [] st hA1
  rw [hAfold] at h ⊢
  obtain ⟨hNfold, hnorm⟩ :=
    foldl_process_post_nil_inv catNormal Main.MESSAGE_DELAY normal [] st h
  refine ⟨hNfold, ?_⟩
  rw [List.all_append, Bool.and_eq_true]
  exact ⟨List.all_eq_true.mpr hcomp, List.all_eq_true.mpr hnorm⟩

theorem sendMentions_append (a b : List Event) :
    sendMentions (a ++ b) = sendMentions a ++ sendMentions b := by
  induction a with
  | nil => rfl
  | cons ev rest ih => cases ev <;> simp [sendMentions, ih]

theorem sendMentions_deliver (m : Option Str) (ok : Nat → Bool) (i : Nat)
    (l : List (Embed × Nat)) :
    sendMentions (deliver m ok i l) = List.replicate l.length m := by
  induction l generalizing i with
  | nil => rfl
  | cons ed rest ih =>
      obtain ⟨e, d⟩ := ed
      by_cases hok : ok i
      · simp [deliver, hok, sendMentions_append, sendMentions, ih, List.replicate_succ]
      · simp [deliver, hok, sendMentions_append, sendMentions, ih, List.replicate_succ]

theorem hasSave_append (a b : List Event) :
    hasSave (a ++ b) = (hasSave a || hasSave b) := by
  induction a with
  | nil => rfl
  | cons ev rest ih => cases ev <;> simp [hasSave, ih]

theorem everyOkSend_deliver (m : Option Str) (ok : Nat → Bool) (i : Nat)
    (l : List (Embed × Nat)) (rest : List Event)
    (h : everyOkSendFollowedBySleep rest = true) :
    everyOkSendFollowedBySleep (deliver m ok i l ++ rest) = true := by
  induction l generalizing i with
  | nil => simpa using h
  | cons ed tl ih =>
      obtain ⟨e, d⟩ := ed
      by_cases hok : ok i
      · simp only [deliver, hok, if_true, List.cons_append, List.nil_append]
        rw [show everyOkSendFollowedBySleep
              (Event.send m e true :: Event.sleep d :: (deliver m ok (i + 1) tl ++ rest))
            = everyOkSendFollowedBySleep (deliver m ok (i + 1) tl ++ rest) from rfl]
        exact ih (i + 1)
      · simp only [deliver, hok, if_false, List.cons_append, List.nil_append]
        exact ih (i + 1)

theorem head_mem_of_isPrefixOf (c : Char) (sub l : Str)
    (h : (c :: sub).isPrefixOf l = true) : c ∈ l := by
  cases l with
  | nil => simp [List.isPrefixOf] at h
  | cons d ds =>
      simp [List.isPrefixOf] at h
      exact List.mem_cons.mpr (Or.inl h.1)

theorem pyIn_head_mem (c : Char) (sub s : Str) (h : pyIn (c :: sub) s = true) : c ∈ s := by
  unfold pyIn at h
  rw [List.any_eq_true] at h
  obtain ⟨k, _, hpre⟩ := h
  exact List.mem_of_mem_drop (head_mem_of_isPrefixOf c sub (s.drop k) hpre)

theorem pyIn_pstyle_eq_false (s : Str) (h : ('<' : Char) ∉ s) : pyIn pstyle s = false := by
  by_contra hcon
  rw [Bool.not_eq_false] at hcon
  exact h (pyIn_head_mem '<' pstyleTail s hcon)

theorem no_lt_in_truncated_body : ('<' : Char) ∉ (longBody.take 997 ++ ellipsis) := by
  intro h
  rw [List.mem_append] at h
  rcases h with h | h
  · have hmem := List.take_subset 997 longBody h
    unfold longBody at hmem
    have := List.eq_of_mem_replicate hmem
    simp at this
  · revert h
    decide

theorem build_embed_truncation (post : RawPost) (category : Str) (c : Str)
    (hmeta : pyTruthy (extract_description (post.metaTags.getD [])) = false)
    (hcontent : post.content = some c)
    (hlen : 1000 < c.length)
    (hmark : pyIn pstyle (c.take 997 ++ ellipsis) = false) :
    (build_embed post category).description = some (c.take 997 ++ ellipsis) := by
  have hcne : c.isEmpty = false := by
    cases c with
    | nil => simp at hlen
    | cons x xs => rfl
  have hres : resolve_description post = some (c.take 997 ++ ellipsis) := by
    simp only [resolve_description, hmeta, hcontent, Bool.false_eq_true, if_false]
    simp [hcne, hlen]
  have hne2 : (c.take 997 ++ ellipsis).isEmpty = false := by
    cases hx : c.take 997 ++ ellipsis with
    | nil =>
        rw [List.append_eq_nil] at hx
        exact absurd hx.2 (by decide)
    | cons y ys => rfl
  have hfin : final_description post = some (c.take 997 ++ ellipsis) := by
    simp only [final_description, hres]
    simp [pyTruthy, hmark]
  show (if pyTruthy (final_description post) then final_description post else none)
      = some (c.take 997 ++ ellipsis)
  rw [hfin]
  simp [pyTruthy, hne2]

theorem longBody_take : longBody.take 997 = List.replicate 997 'a' := by
  unfold longBody
  rw [List.take_replicate]
  norm_num

/-- C1 counterexample: with two fresh posts and every send succeeding,
neither variant of the code follows the claimed first-message-only
mention policy — main.py sends both messages without any mention, and
test.py sends a mention on the second message as well. -/
theorem claimC1_counterexample :
    firstMessageOnlyMention (Main.blog_monitor_cycle okAll [postA] [postB] []).1 = false
  ∧ firstMessageOnlyMention
      (Test.blog_monitor_cycle pingSample okAll [postA] [postB] [] []).1 = false := by
  exact ⟨rfl, rfl⟩

/-- C1 amended: the mention pattern of a delivery phase is uniform, not
first-message-only — in main.py every message of every cycle carries no
mention at all, and in test.py every message of every cycle carries the
same fixed role mention, independent of position and of the item's
source category. -/
theorem claimC1_amended (pingUserId : Str) (ok : Nat → Bool)
    (comp normal creative : List RawPost) (st : Store) :
    sendMentions (Main.blog_monitor_cycle ok comp normal st).1
      = List.replicate (Main.detect comp normal st).1.length (none : Option Str)
  ∧ sendMentions (Test.blog_monitor_cycle pingUserId ok comp normal creative st).1
      = List.replicate (Test.detect comp normal creative st).1.length
          (some (Test.mentionText pingUserId)) := by
  constructor
  · simp only [Main.blog_monitor_cycle]
    by_cases h : (Main.detect comp normal st).1.isEmpty
    · have h0 : (Main.detect comp normal st).1 = [] := by
        cases hd : (Main.detect comp normal st).1 with
        | nil => rfl
        | cons x xs => rw [hd] at h; exact absurd h (by simp)
      simp [h, h0, sendMentions]
    · simp [h, sendMentions_append, sendMentions_deliver, sendMentions]
  · simp only [Test.blog_monitor_cycle]
    by_cases h : (Test.detect comp normal creative st).1.isEmpty
    · have h0 : (Test.detect comp normal creative st).1 = [] := by
        cases hd : (Test.detect comp normal creative st).1 with
        | nil => rfl
        | cons x xs => rw [hd] at h; exact absurd h (by simp)
      simp [h, h0, sendMentions]
    · simp [h, sendMentions_append, sendMentions_deliver, sendMentions]

/-- C2: for every fetched item with resolvable (truthy) identity, the
detection condition classifies it as exactly one of unseen / changed /
unchanged (each case characterised by the store contents), and detection
is idempotent: against the store updated by a first pass the item is
classified unchanged, and a second pass appends no notification and
mutates nothing. -/
theorem claimC2_change_detection (category : Str) (delay : Nat) (post : RawPost)
    (embeds : List (Embed × Nat)) (st : Store) (pid : Str)
    (hpid : get_post_id post = some pid) (hne : pid ≠ []) :
    (classify st pid (trendingOf post) = Classification.unseen ↔ lookupStore st pid = none)
  ∧ (classify st pid (trendingOf post) = Classification.unchanged
      ↔ lookupStore st pid = some (some (trendingOf post)))
  ∧ (classify st pid (trendingOf post) = Classification.changed
      ↔ ∃ stored, lookupStore st pid = some stored ∧ stored ≠ some (trendingOf post))
  ∧ classify (process_post category delay (embeds, st) post).2 pid (trendingOf post)
      = Classification.unchanged
  ∧ process_post category delay (process_post category delay (embeds, st) post) post
      = process_post category delay (embeds, st) post := by
  have htrack := trackedId_of_get_post_id post pid hpid hne
  refine ⟨?_, ?_, ?_, ?_, ?_⟩
  · cases hlook : lookupStore st pid with
    | none => simp [classify, hlook]
    | some stored =>
        by_cases hs : stored = some (trendingOf post) <;> simp [classify, hlook, hs]
  · cases hlook : lookupStore st pid with
    | none => simp [classify, hlook]
    | some stored =>
        by_cases hs : stored = some (trendingOf post) <;> simp [classify, hlook, hs]
  · cases hlook : lookupStore st pid with
    | none => simp [classify, hlook]
    | some stored =>
        by_cases hs : stored = some (trendingOf post) <;> simp [classify, hlook, hs]
  · by_cases hc : classify st pid (trendingOf post) = Classification.unchanged
    · rw [process_post_unchanged category delay (embeds, st) post pid htrack hc]
      exact hc
    · rw [process_post_trigger category delay (embeds, st) post pid htrack hc]
      simp [classify, lookupStore_insertStore_self]
  · by_cases hc : classify st pid (trendingOf post) = Classification.unchanged
    · rw [process_post_unchanged category delay (embeds, st) post pid htrack hc]
      exact process_post_unchanged category delay (embeds, st) post pid htrack hc
    · rw [process_post_trigger category delay (embeds, st) post pid htrack hc]
      exact process_post_unchanged category delay _ post pid htrack
        (by simp [classify, lookupStore_insertStore_self])

/-- C2 witness: the properties at a concrete fresh post against the
empty store. -/
theorem claimC2_witness :
    (classify ([] : Store) idA (trendingOf postA) = Classification.unseen
      ↔ lookupStore ([] : Store) idA = none)
  ∧ (classify ([] : Store) idA (trendingOf postA) = Classification.unchanged
      ↔ lookupStore ([] : Store) idA = some (some (trendingOf postA)))
  ∧ (classify ([] : Store) idA (trendingOf postA) = Classification.changed
      ↔ ∃ stored, lookupStore ([] : Store) idA = some stored
          ∧ stored ≠ some (trendingOf postA))
  ∧ classify (process_post catCompetitive 5 ([], ([] : Store)) postA).2 idA
      (trendingOf postA) = Classification.unchanged
  ∧ process_post catCompetitive 5
        (process_post catCompetitive 5 ([], ([] : Store)) postA) postA
      = process_post catCompetitive 5 ([], ([] : Store)) postA :=
  claimC2_change_detection catCompetitive 5 postA [] [] idA rfl (by decide)

/-- C3: when the store records identity `pid` with trending flag `t` and
a fetched item bears that identity with the flipped flag, the item is
classified changed, exactly one notification is queued, and the store
entry for `pid` is updated to the flipped flag. -/
theorem claimC3_trending_flip (category : Str) (delay : Nat) (post : RawPost)
    (embeds : List (Embed × Nat)) (st : Store) (pid : Str) (t : Bool)
    (hpid : get_post_id post = some pid) (hne : pid ≠ [])
    (hstore : lookupStore st pid = some (some t)) (htr : trendingOf post = !t) :
    classify st pid (trendingOf post) = Classification.changed
  ∧ process_post category delay (embeds, st) post
      = (embeds ++ [(build_embed post category, delay)], insertStore st pid (some (!t)))
  ∧ lookupStore (process_post category delay (embeds, st) post).2 pid = some (some (!t)) := by
  have htrack := trackedId_of_get_post_id post pid hpid hne
  have hcl : classify st pid (trendingOf post) = Classification.changed := by
    rw [htr]
    simp [classify, hstore]
  have hproc := process_post_trigger category delay (embeds, st) post pid htrack
    (by rw [hcl]; simp)
  rw [htr] at hproc
  refine ⟨hcl, hproc, ?_⟩
  rw [hproc]
  exact lookupStore_insertStore_self st pid (some (!t))

/-- C3 witness: flipping the recorded trending flag of `idA` from true
to false queues exactly one notification and rewrites the entry. -/
theorem claimC3_witness :
    classify stTrendTrue idA (trendingOf postFlip) = Classification.changed
  ∧ process_post catCompetitive 5 ([], stTrendTrue) postFlip
      = ([] ++ [(build_embed postFlip catCompetitive, 5)],
         insertStore stTrendTrue idA (some (!true)))
  ∧ lookupStore (process_post catCompetitive 5 ([], stTrendTrue) postFlip).2 idA
      = some (some (!true)) :=
  claimC3_trending_flip catCompetitive 5 postFlip [] stTrendTrue idA true rfl (by decide)
    rfl rfl

/-- C10: a fetched item without a trending key defaults to trending
false, so it is classified unchanged when the store records its identity
with trending false and changed when the store records trending true. -/
theorem claimC10_default_trending (post : RawPost) (st : Store) (pid : Str) (b : Bool)
    (hpid : get_post_id post = some pid) (htrend : post.trending = none)
    (hstore : lookupStore st pid = some (some b)) :
    trendingOf post = false
  ∧ classify st pid (trendingOf post)
      = (if b then Classification.changed else Classification.unchanged) := by
  have ht : trendingOf post = false := by simp [trendingOf, htrend]
  refine ⟨ht, ?_⟩
  rw [ht]
  cases b <;> simp [classify, hstore]

/-- C10 witness: a trending-less post against a store recording its
identity with trending true is classified changed. -/
theorem claimC10_witness :
    trendingOf postNoTrend = false
  ∧ classify stTrendTrue idA (trendingOf postNoTrend)
      = (if true then Classification.changed else Classification.unchanged) :=
  claimC10_default_trending postNoTrend stTrendTrue idA true rfl rfl rfl

/-- C4: the state file is written at the end of a main.py cycle exactly
when some fetched item is tracked and not classified unchanged; a cycle
in which every fetched item is a no-op produces an empty event trace (no
sends, no file write) and leaves the in-memory store unchanged. -/
theorem claimC4_save_iff_change (ok : Nat → Bool) (comp normal : List RawPost)
    (st : Store) :
    hasSave (Main.blog_monitor_cycle ok comp normal st).1
      = !((comp ++ normal).all (itemUnchanged st))
  ∧ ((comp ++ normal).all (itemUnchanged st) = true →
      Main.blog_monitor_cycle ok comp normal st = ([], st)) := by
  by_cases hall : (comp ++ normal).all (itemUnchanged st) = true
  · have hdet := detect_all_unchanged comp normal st hall
    have hcycle : Main.blog_monitor_cycle ok comp normal st = ([], st) := by
      simp only [Main.blog_monitor_cycle]
      rw [hdet]
      rfl
    rw [hcycle, hall]
    exact ⟨rfl, fun _ => rfl⟩
  · have hallf : (comp ++ normal).all (itemUnchanged st) = false := by
      revert hall
      cases (comp ++ normal).all (itemUnchanged st) <;> simp
    have hnil : (Main.detect comp normal st).1 ≠ [] := by
      intro h0
      exact hall (detect_nil_inv comp normal st h0).2
    have hempty : (Main.detect comp normal st).1.isEmpty = false := by
      cases hd : (Main.detect comp normal st).1 with
      | nil => exact absurd hd hnil
      | cons x xs => rfl
    constructor
    · simp only [Main.blog_monitor_cycle, hempty, Bool.false_eq_true, if_false]
      rw [hasSave_append, hallf]
      simp [hasSave]
    · intro h
      exact absurd h hall

/-- C4 witness: one already-recorded unchanged post yields an all-no-op
cycle with no file write, an empty trace, and an untouched store. -/
theorem claimC4_witness :
    hasSave (Main.blog_monitor_cycle okAll [postA] [] stTrendFalse).1
      = !(([postA] ++ []).all (itemUnchanged stTrendFalse))
  ∧ (([postA] ++ []).all (itemUnchanged stTrendFalse) = true →
      Main.blog_monitor_cycle okAll [postA] [] stTrendFalse = ([], stTrendFalse)) :=
  claimC4_save_iff_change okAll [postA] [] stTrendFalse

/-- C5: the feed fetch is a total function of the fetch outcome — every
failure outcome (network, transport, decode, non-2xx) yields the empty
post list, and a cycle fed from a failed source is the same cycle as one
whose source returned nothing, so the other source is unaffected. -/
theorem claimC5_fetch_failure (ok : Nat → Bool) (normal : List RawPost) (st : Store) :
    fetch_posts FetchOutcome.failure = []
  ∧ Main.blog_monitor_cycle ok (fetch_posts FetchOutcome.failure) normal st
      = Main.blog_monitor_cycle ok [] normal st :=
  ⟨rfl, rfl⟩

/-- C9 counterexample: when the first of two sends fails, the exception
handler skips the sleep, so the failed send attempt is immediately
followed by the next send with no delay between the two attempts. -/
theorem claimC9_counterexample :
    everySendFollowedBySleep (Main.blog_monitor_cycle okFail0 [postA] [postB] []).1
      = false := by
  rfl

/-- C9 amended: the inter-message delay follows every successful send,
including the last one of the cycle; a send attempt that raises skips
its delay. -/
theorem claimC9_amended (ok : Nat → Bool) (comp normal : List RawPost) (st : Store) :
    everyOkSendFollowedBySleep (Main.blog_monitor_cycle ok comp normal st).1 = true := by
  simp only [Main.blog_monitor_cycle]
  by_cases h : (Main.detect comp normal st).1.isEmpty
  · simp [h, everyOkSendFollowedBySleep]
  · simp only [h, Bool.false_eq_true, if_false]
    exact everyOkSend_deliver none ok 0 (Main.detect comp normal st).1
      [Event.save (Main.detect comp normal st).2] rfl

/-- C6 counterexample: a 1500-character content body with no meta
description resolves to the first 997 characters plus the ellipsis
(1000 characters in total), not to 996 characters plus the ellipsis as
the claim states. -/
theorem claimC6_counterexample :
    (build_embed pC6 catNormal).description = some (List.replicate 997 'a' ++ ellipsis)
  ∧ (build_embed pC6 catNormal).description ≠ some (List.replicate 996 'a' ++ ellipsis) := by
  have hdesc := build_embed_truncation pC6 catNormal longBody rfl rfl
    (by norm_num [longBody, List.length_replicate])
    (pyIn_pstyle_eq_false (longBody.take 997 ++ ellipsis) no_lt_in_truncated_body)
  rw [longBody_take] at hdesc
  refine ⟨hdesc, ?_⟩
  rw [hdesc]
  intro hcon
  rw [Option.some.injEq] at hcon
  have hlen := congrArg List.length hcon
  have hell : ellipsis.length = 3 := rfl
  simp only [List.length_append, List.length_replicate, hell] at hlen
  omega

/-- C6 amended: when no meta description is resolved and the content
body exceeds 1000 characters, the resolved description is the body
truncated to 997 characters plus the three-character ellipsis marker —
exactly 1000 characters ending in the marker. -/
theorem claimC6_amended (post : RawPost) (category : Str) (c : Str)
    (hmeta : pyTruthy (extract_description (post.metaTags.getD [])) = false)
    (hcontent : post.content = some c)
    (hlen : 1000 < c.length)
    (hmark : pyIn pstyle (c.take 997 ++ ellipsis) = false) :
    (build_embed post category).description = some (c.take 997 ++ ellipsis)
  ∧ (c.take 997 ++ ellipsis).length = 1000
  ∧ ellipsis <:+ (c.take 997 ++ ellipsis) := by
  refine ⟨build_embed_truncation post category c hmeta hcontent hlen hmark, ?_,
    List.suffix_append (c.take 997) ellipsis⟩
  have hell : ellipsis.length = 3 := rfl
  simp only [List.length_append, List.length_take, hell]
  omega

/-- C6 witness: the amended statement at the concrete 1500-character
body. -/
theorem claimC6_witness :
    (build_embed pC6 catNormal).description = some (longBody.take 997 ++ ellipsis)
  ∧ (longBody.take 997 ++ ellipsis).length = 1000
  ∧ ellipsis <:+ (longBody.take 997 ++ ellipsis) :=
  claimC6_amended pC6 catNormal longBody rfl rfl
    (by norm_num [longBody, List.length_replicate])
    (pyIn_pstyle_eq_false (longBody.take 997 ++ ellipsis) no_lt_in_truncated_body)

/-- C7 counterexample: a meta-tag blob containing both a meta
description and the inline-style marker still resolves to the meta
description — the marker in the blob does not suppress it, contrary to
the claim. -/
theorem claimC7_counterexample :
    pyIn pstyle blobC7 = true
  ∧ (build_embed pC7 catNormal).description = some helloStr := by
  exact ⟨by decide, rfl⟩

/-- C7 amended: the inline-style suppression applies to the resolved
description text: whenever the resolved description itself contains the
marker, the composed payload carries no description. -/
theorem claimC7_amended (post : RawPost) (category : Str) (d : Str)
    (hres : resolve_description post = some d) (hmark : pyIn pstyle d = true) :
    (build_embed post category).description = none := by
  have hdne : d.isEmpty = false := by
    cases d with
    | nil => exact absurd hmark (by decide)
    | cons x xs => rfl
  have hfin : final_description post = none := by
    simp only [final_description, hres]
    simp [pyTruthy, hdne, hmark]
  show (if pyTruthy (final_description post) then final_description post else none) = none
  rw [hfin]
  rfl

/-- C7 witness: a content body that is exactly the marker resolves to a
description containing the marker, and the payload carries none. -/
theorem claimC7_witness : (build_embed pC7w catNormal).description = none :=
  claimC7_amended pC7w catNormal pstyle rfl (by decide)

/-- C8 counterexample: a post whose title is exactly the boilerplate
phrase ends up with an empty title after removal and trimming. -/
theorem claimC8_counterexample : (build_embed pC8 catNormal).title = [] := by
  rfl

/-- C8 amended: the fallback chain itself always yields a non-empty
title, and the composed title is that string with the boilerplate phrase
removed and whitespace trimmed — which can be empty when the original
title consists only of the phrase and whitespace. -/
theorem claimC8_amended (post : RawPost) (category : Str) :
    (title_fallback post).isEmpty = false
  ∧ (build_embed post category).title
      = pyStrip (replaceAll (title_fallback post) boilerPhrase) := by
  refine ⟨?_, rfl⟩
  cases ht : post.title with
  | none =>
      cases hg : post.gridTitle with
      | none => simp [title_fallback, pyOrD, ht, hg, noTitleStr]
      | some g =>
          cases hgs : g.isEmpty with
          | false => simp [title_fallback, pyOrD, ht, hg, hgs]
          | true => simp [title_fallback, pyOrD, ht, hg, hgs, noTitleStr]
  | some s =>
      cases hs : s.isEmpty with
      | false => simp [title_fallback, pyOrD, ht, hs]
      | true =>
          cases hg : post.gridTitle with
          | none => simp [title_fallback, pyOrD, ht, hs, hg, noTitleStr]
          | some g =>
              cases hgs : g.isEmpty with
              | false => simp [title_fallback, pyOrD, ht, hs, hg, hgs]
              | true => simp [title_fallback, pyOrD, ht, hs, hg, hgs, noTitleStr]
